import Mathlib

/-!
Verification of the position / profit-and-loss aggregation core in
`packages/augur-sdk/src/state/getter/Users.ts`.

Modelling conventions:
* `BigNumber` values are modelled as exact rationals (`ℚ`); the spec mandates
  arbitrary-precision decimal arithmetic for all monetary computations.
* A `BigNumber` division whose divisor may be zero produces a non-finite value
  (`NaN` or `Infinity`, rendered as a non-numeric string by `toFixed`); such
  divisions are modelled with `Option ℚ`, `none` standing for the non-finite
  result.  Divisions by nonzero constants (the 10^18 scale, guarded costs) use
  plain `ℚ` division.
* Numeric strings of the source (`'0'`, `toFixed()` outputs) are represented by
  the rational values they denote; `toFixed(4)` rounding of percentage fields
  is display-layer formatting and is not modelled.
* `undefined` / absent values become `Option`.
-/

/-- On-chain fixed-point scale, 10^18 (`QUINTILLION` in the source). -/
def QUINTILLION : ℚ := 10 ^ 18

/-- Division as performed by `BigNumber.dividedBy`: a zero divisor yields a
non-finite value (`NaN` for `0/0`, `Infinity` otherwise), modelled as `none`. -/
def bnDiv (x y : ℚ) : Option ℚ := if y = 0 then none else some (x / y)

/-- Modelled from the spec: `numTicksToTickSize` is imported by `Users.ts`
from a utils package that is not under `src/`.  Spec §3: tick size is
`(maxPrice - minPrice) / numTicks`; §4.1: prices carry an 18-decimal
on-chain scale, so the on-chain price range is divided out by 10^18.
Argument order follows the call sites in `Users.ts`. -/
def numTicksToTickSize (numTicks minPrice maxPrice : ℚ) : ℚ :=
  (maxPrice - minPrice) / numTicks / QUINTILLION

/-- Modelled from the spec: `toDisplayAmount(onChainAmount, tickSize)` (§4.1);
an on-chain amount is the display amount scaled by `tickSize * 10^18`. -/
def convertOnChainAmountToDisplayAmount (onChainAmount tickSize : ℚ) : ℚ :=
  onChainAmount / (tickSize * QUINTILLION)

/-- Modelled from the spec: `toDisplayPrice(onChainPrice, minPrice, tickSize)`
(§4.1); an on-chain price is scaled by the tick size and offset by the
display-scale minimum price. -/
def convertOnChainPriceToDisplayPrice (onChainPrice minPrice tickSize : ℚ) : ℚ :=
  onChainPrice * tickSize + minPrice / QUINTILLION

/-- Fields of a `ProfitLossChangedLog` used by the position calculator and the
bucketed series (on-chain scale; the source's numeric strings become `ℚ`,
its hex timestamp strings become `ℤ`). -/
structure ProfitLossChangedLog where
  market : String
  outcome : String
  netPosition : ℚ
  avgPrice : ℚ
  realizedProfit : ℚ
  realizedCost : ℚ
  frozenFunds : ℚ
  timestamp : ℤ
deriving DecidableEq

/-- Fields of a `MarketData` document used here: `prices0`/`prices1` are the
source's `prices[0]` (on-chain minimum price) and `prices[1]` (on-chain
maximum price). -/
structure MarketData where
  market : String
  prices0 : ℚ
  prices1 : ℚ
  numTicks : ℚ
deriving DecidableEq

/-- Output of `getTradingPositionFromProfitLossFrame` (the source's
`TradingPosition`).  Percentage fields are `Option ℚ`: `none` models a
non-finite `BigNumber` (which `toFixed` renders as a non-numeric string).
The source additionally converts `outcome` to a number for the output;
we carry the original string. -/
structure TradingPosition where
  timestamp : ℤ
  frozenFunds : ℚ
  marketId : String
  outcome : String
  netPosition : ℚ
  rawPosition : ℚ
  averagePrice : ℚ
  realized : ℚ
  unrealized : ℚ
  unrealized24Hr : ℚ
  total : ℚ
  unrealizedCost : ℚ
  realizedCost : ℚ
  totalCost : ℚ
  realizedPercent : Option ℚ
  unrealizedPercent : Option ℚ
  unrealized24HrPercent : Option ℚ
  totalPercent : Option ℚ
  currentValue : ℚ
deriving DecidableEq

/-- Shallow embedding of `getTradingPositionFromProfitLossFrame`
(`Users.ts` lines 1535-1673).  `shareTokenBalances` models the
`shareTokenBalancesByMarketAndOutcome` nested dictionary (passed as `null`
when the position is not finalized) as an optional partial map from market
and outcome to the `balance` field.  The source computes
`last24HrTradePrice` from `onChainOutcomeValue` (not from
`onChain24HrOutcomeValue`, which is only tested for presence); the embedding
reproduces this faithfully. -/
def getTradingPositionFromProfitLossFrame
    (profitLossFrame : ProfitLossChangedLog)
    (marketDoc : MarketData)
    (onChainOutcomeValue : ℚ)
    (onChain24HrOutcomeValue : Option ℚ)
    (timestamp : ℤ)
    (shareTokenBalances : Option (String → String → Option ℚ))
    (finalized : Bool) : TradingPosition :=
  let minPrice := marketDoc.prices0
  let maxPrice := marketDoc.prices1
  let numTicks := marketDoc.numTicks
  let tickSize := numTicksToTickSize numTicks minPrice maxPrice
  let onChainFrozenFunds := profitLossFrame.frozenFunds / QUINTILLION
  let onChainNetPosition := profitLossFrame.netPosition
  let onChainAvgPrice := profitLossFrame.avgPrice / QUINTILLION
  let onChainRealizedProfit := profitLossFrame.realizedProfit / QUINTILLION
  let onChainRealizedCost := profitLossFrame.realizedCost / QUINTILLION
  let onChainRawPosition : ℚ :=
    match shareTokenBalances with
    | some balances =>
      match balances marketDoc.market profitLossFrame.outcome with
      | some b => b
      | none => 0
    | none => 0
  let onChainAvgCost :=
    if onChainNetPosition < 0 then numTicks - onChainAvgPrice else onChainAvgPrice
  let onChainUnrealizedCost := |onChainNetPosition| * onChainAvgCost
  let frozenFunds := onChainFrozenFunds / QUINTILLION
  let netPosition := convertOnChainAmountToDisplayAmount onChainNetPosition tickSize
  let rawPosition := convertOnChainAmountToDisplayAmount onChainRawPosition tickSize
  let realizedProfit := onChainRealizedProfit / QUINTILLION
  let avgPrice := convertOnChainPriceToDisplayPrice onChainAvgPrice minPrice tickSize
  let realizedCost := onChainRealizedCost / QUINTILLION
  let unrealizedCost := onChainUnrealizedCost / QUINTILLION
  let lastTradePrice := convertOnChainPriceToDisplayPrice onChainOutcomeValue minPrice tickSize
  let last24HrTradePrice : Option ℚ :=
    match onChain24HrOutcomeValue with
    | some _ =>
      some (convertOnChainPriceToDisplayPrice onChainOutcomeValue minPrice tickSize)
    | none => none
  let unrealized :=
    |netPosition| *
      (if onChainNetPosition < 0 then avgPrice - lastTradePrice
       else lastTradePrice - avgPrice)
  let unrealized24Hr : ℚ :=
    match last24HrTradePrice with
    | some p24 =>
      |netPosition| *
        (if onChainNetPosition < 0 then avgPrice - p24 else p24 - avgPrice)
    | none => 0
  let shortPrice := maxPrice / QUINTILLION - lastTradePrice
  let currentValue :=
    |netPosition| * (if onChainNetPosition < 0 then shortPrice else lastTradePrice)
  let totalCost := unrealizedCost + realizedCost
  let realizedCostF := if finalized then unrealizedCost + realizedCost else realizedCost
  let realizedProfitF := if finalized then realizedProfit + unrealized else realizedProfit
  let unrealizedF : ℚ := if finalized then 0 else unrealized
  let unrealized24HrF : ℚ := if finalized then 0 else unrealized24Hr
  let unrealizedCostF : ℚ := if finalized then 0 else unrealizedCost
  let avgPriceF :=
    if finalized then (if onChainNetPosition = 0 then 0 else avgPrice) else avgPrice
  let unrealized24HrPercent :=
    if unrealizedCostF = 0 then some (0 : ℚ) else bnDiv unrealized24HrF unrealizedCostF
  let unrealizedPercent :=
    if unrealizedCostF = 0 then some (0 : ℚ) else bnDiv unrealizedF unrealizedCostF
  let totalPercent := bnDiv (realizedProfitF + unrealizedF) (realizedCostF + unrealizedCostF)
  let realizedPercent :=
    if realizedCostF = 0 then some (0 : ℚ) else bnDiv realizedProfitF |realizedCostF|
  { timestamp := timestamp
    frozenFunds := frozenFunds
    marketId := profitLossFrame.market
    outcome := profitLossFrame.outcome
    netPosition := netPosition
    rawPosition := rawPosition
    averagePrice := avgPriceF
    realized := realizedProfitF
    unrealized := unrealizedF
    unrealized24Hr := unrealized24HrF
    total := realizedProfitF + unrealizedF
    unrealizedCost := unrealizedCostF
    realizedCost := realizedCostF
    totalCost := totalCost
    realizedPercent := realizedPercent
    unrealizedPercent := unrealizedPercent
    unrealized24HrPercent := unrealized24HrPercent
    totalPercent := totalPercent
    currentValue := currentValue }

/-- C2: with the finalized flag set, the position calculator zeroes
`unrealized`, `unrealized24Hr` and `unrealizedCost`, folds the pre-collapse
unrealized profit into `realized` and the pre-collapse unrealized cost into
`realizedCost`, and zeroes `averagePrice` exactly when the net position is
zero, leaving it unchanged otherwise (the pre-collapse values being those the
same inputs produce with the flag cleared). -/
theorem finalizedCollapse_spec
    (profitLossFrame : ProfitLossChangedLog) (marketDoc : MarketData)
    (onChainOutcomeValue : ℚ) (onChain24HrOutcomeValue : Option ℚ)
    (timestamp : ℤ) (shareTokenBalances : Option (String → String → Option ℚ)) :
    (getTradingPositionFromProfitLossFrame profitLossFrame marketDoc
        onChainOutcomeValue onChain24HrOutcomeValue timestamp shareTokenBalances
        true).unrealized = 0 ∧
    (getTradingPositionFromProfitLossFrame profitLossFrame marketDoc
        onChainOutcomeValue onChain24HrOutcomeValue timestamp shareTokenBalances
        true).unrealized24Hr = 0 ∧
    (getTradingPositionFromProfitLossFrame profitLossFrame marketDoc
        onChainOutcomeValue onChain24HrOutcomeValue timestamp shareTokenBalances
        true).unrealizedCost = 0 ∧
    (getTradingPositionFromProfitLossFrame profitLossFrame marketDoc
        onChainOutcomeValue onChain24HrOutcomeValue timestamp shareTokenBalances
        true).realized =
      (getTradingPositionFromProfitLossFrame profitLossFrame marketDoc
        onChainOutcomeValue onChain24HrOutcomeValue timestamp shareTokenBalances
        false).realized +
      (getTradingPositionFromProfitLossFrame profitLossFrame marketDoc
        onChainOutcomeValue onChain24HrOutcomeValue timestamp shareTokenBalances
        false).unrealized ∧
    (getTradingPositionFromProfitLossFrame profitLossFrame marketDoc
        onChainOutcomeValue onChain24HrOutcomeValue timestamp shareTokenBalances
        true).realizedCost =
      (getTradingPositionFromProfitLossFrame profitLossFrame marketDoc
        onChainOutcomeValue onChain24HrOutcomeValue timestamp shareTokenBalances
        false).realizedCost +
      (getTradingPositionFromProfitLossFrame profitLossFrame marketDoc
        onChainOutcomeValue onChain24HrOutcomeValue timestamp shareTokenBalances
        false).unrealizedCost ∧
    (getTradingPositionFromProfitLossFrame profitLossFrame marketDoc
        onChainOutcomeValue onChain24HrOutcomeValue timestamp shareTokenBalances
        true).averagePrice =
      (if profitLossFrame.netPosition = 0 then 0 else
        (getTradingPositionFromProfitLossFrame profitLossFrame marketDoc
          onChainOutcomeValue onChain24HrOutcomeValue timestamp shareTokenBalances
          false).averagePrice) := by
  refine ⟨rfl, rfl, rfl, ?_, ?_, ?_⟩
  · simp [getTradingPositionFromProfitLossFrame]
  · simp [getTradingPositionFromProfitLossFrame]
    ring
  · simp [getTradingPositionFromProfitLossFrame]

/-- C4: whenever a 24-hour-prior valuation price is supplied, the calculator
returns `unrealized24Hr` equal to `unrealized`, because the source computes
the 24-hour trade price from the same current `onChainOutcomeValue`; this
holds for any net position sign and any finalization flag. -/
theorem unrealized24Hr_eq_unrealized
    (profitLossFrame : ProfitLossChangedLog) (marketDoc : MarketData)
    (onChainOutcomeValue p24 : ℚ) (timestamp : ℤ)
    (shareTokenBalances : Option (String → String → Option ℚ)) (finalized : Bool) :
    (getTradingPositionFromProfitLossFrame profitLossFrame marketDoc
        onChainOutcomeValue (some p24) timestamp shareTokenBalances
        finalized).unrealized24Hr =
    (getTradingPositionFromProfitLossFrame profitLossFrame marketDoc
        onChainOutcomeValue (some p24) timestamp shareTokenBalances
        finalized).unrealized := rfl

/-- Helper for the sign-symmetry argument: negating the on-chain net position
flips the long/short branch of the unrealized-profit formula and negates the
product. -/
lemma abs_mul_branch_neg (n q A L : ℚ) :
    |(-n) / q| * (if -n < 0 then A - L else L - A)
      = -(|n / q| * (if n < 0 then A - L else L - A)) := by
  rcases lt_trichotomy n 0 with h | h | h
  · rw [if_neg (by linarith), if_pos h, neg_div, abs_neg]
    ring
  · subst h
    simp
  · rw [if_pos (by linarith), if_neg (by linarith), neg_div, abs_neg]
    ring

/-- C6: for two non-finalized position inputs identical except for a negated
`netPosition`, with the same average price and the same valuation price, the
computed `unrealized` values are exact negatives of each other. -/
theorem unrealized_sign_symmetry
    (profitLossFrame : ProfitLossChangedLog) (marketDoc : MarketData)
    (onChainOutcomeValue : ℚ) (onChain24HrOutcomeValue : Option ℚ)
    (timestamp : ℤ) (shareTokenBalances : Option (String → String → Option ℚ)) :
    (getTradingPositionFromProfitLossFrame
        { profitLossFrame with netPosition := -profitLossFrame.netPosition }
        marketDoc onChainOutcomeValue onChain24HrOutcomeValue timestamp
        shareTokenBalances false).unrealized =
      -(getTradingPositionFromProfitLossFrame profitLossFrame marketDoc
        onChainOutcomeValue onChain24HrOutcomeValue timestamp shareTokenBalances
        false).unrealized := by
  simpa [getTradingPositionFromProfitLossFrame, convertOnChainAmountToDisplayAmount] using
    abs_mul_branch_neg profitLossFrame.netPosition
      (numTicksToTickSize marketDoc.numTicks marketDoc.prices0 marketDoc.prices1 * QUINTILLION)
      (convertOnChainPriceToDisplayPrice (profitLossFrame.avgPrice / QUINTILLION)
        marketDoc.prices0
        (numTicksToTickSize marketDoc.numTicks marketDoc.prices0 marketDoc.prices1))
      (convertOnChainPriceToDisplayPrice onChainOutcomeValue marketDoc.prices0
        (numTicksToTickSize marketDoc.numTicks marketDoc.prices0 marketDoc.prices1))

/-- C3 counterexample: on an all-zero profit-loss frame (net position zero,
zero realized cost) the calculator's `totalPercent` divides by the zero summed
cost with no guard, producing a non-finite value (`0/0` is `NaN` in
`BigNumber`, rendered as a non-numeric string), not `0`. -/
theorem totalPercent_zeroCost_counterexample :
    (getTradingPositionFromProfitLossFrame
        ⟨"m", "0x00", 0, 0, 0, 0, 0, 0⟩ ⟨"m", 0, 10 ^ 18, 100⟩
        50 none 0 none false).realizedCost = 0 ∧
    (getTradingPositionFromProfitLossFrame
        ⟨"m", "0x00", 0, 0, 0, 0, 0, 0⟩ ⟨"m", 0, 10 ^ 18, 100⟩
        50 none 0 none false).unrealizedCost = 0 ∧
    (getTradingPositionFromProfitLossFrame
        ⟨"m", "0x00", 0, 0, 0, 0, 0, 0⟩ ⟨"m", 0, 10 ^ 18, 100⟩
        50 none 0 none false).totalPercent = none := by
  refine ⟨?_, ?_, ?_⟩ <;>
    simp [getTradingPositionFromProfitLossFrame, bnDiv]

/-- Helper: a zero-guarded `BigNumber` division by an absolute value is always
finite. -/
lemma guardedBnDivAbs_eq (num c : ℚ) :
    (if c = 0 then some (0 : ℚ) else bnDiv num |c|)
      = some (if c = 0 then 0 else num / |c|) := by
  split <;> rename_i h <;> simp [bnDiv, h, abs_eq_zero]

/-- Helper: a zero-guarded `BigNumber` division is always finite. -/
lemma guardedBnDiv_eq (num c : ℚ) :
    (if c = 0 then some (0 : ℚ) else bnDiv num c)
      = some (if c = 0 then 0 else num / c) := by
  split <;> rename_i h <;> simp [bnDiv, h]

/-- Helper: an unguarded `BigNumber` division by zero is non-finite. -/
lemma bnDiv_zero_den (num c : ℚ) (h : c = 0) : bnDiv num c = none := by
  simp [bnDiv, h]

/-- C3 as amended: `realizedPercent`, `unrealizedPercent` and
`unrealized24HrPercent` are each the corresponding profit divided by the
corresponding cost, defined as `0` when that cost is zero (and `realizedPercent`
divides by the absolute value of the realized cost); `totalPercent`, however,
is computed with no zero guard, so it is total profit over summed cost when the
summed cost is nonzero and a non-finite value (non-numeric string) when the
summed cost is zero. -/
theorem percent_fields_spec
    (profitLossFrame : ProfitLossChangedLog) (marketDoc : MarketData)
    (onChainOutcomeValue : ℚ) (onChain24HrOutcomeValue : Option ℚ)
    (timestamp : ℤ) (shareTokenBalances : Option (String → String → Option ℚ))
    (finalized : Bool) :
    (getTradingPositionFromProfitLossFrame profitLossFrame marketDoc
        onChainOutcomeValue onChain24HrOutcomeValue timestamp shareTokenBalances
        finalized).realizedPercent =
      some (if (getTradingPositionFromProfitLossFrame profitLossFrame marketDoc
          onChainOutcomeValue onChain24HrOutcomeValue timestamp shareTokenBalances
          finalized).realizedCost = 0 then 0 else
        (getTradingPositionFromProfitLossFrame profitLossFrame marketDoc
          onChainOutcomeValue onChain24HrOutcomeValue timestamp shareTokenBalances
          finalized).realized /
        |(getTradingPositionFromProfitLossFrame profitLossFrame marketDoc
          onChainOutcomeValue onChain24HrOutcomeValue timestamp shareTokenBalances
          finalized).realizedCost|) ∧
    (getTradingPositionFromProfitLossFrame profitLossFrame marketDoc
        onChainOutcomeValue onChain24HrOutcomeValue timestamp shareTokenBalances
        finalized).unrealizedPercent =
      some (if (getTradingPositionFromProfitLossFrame profitLossFrame marketDoc
          onChainOutcomeValue onChain24HrOutcomeValue timestamp shareTokenBalances
          finalized).unrealizedCost = 0 then 0 else
        (getTradingPositionFromProfitLossFrame profitLossFrame marketDoc
          onChainOutcomeValue onChain24HrOutcomeValue timestamp shareTokenBalances
          finalized).unrealized /
        (getTradingPositionFromProfitLossFrame profitLossFrame marketDoc
          onChainOutcomeValue onChain24HrOutcomeValue timestamp shareTokenBalances
          finalized).unrealizedCost) ∧
    (getTradingPositionFromProfitLossFrame profitLossFrame marketDoc
        onChainOutcomeValue onChain24HrOutcomeValue timestamp shareTokenBalances
        finalized).unrealized24HrPercent =
      some (if (getTradingPositionFromProfitLossFrame profitLossFrame marketDoc
          onChainOutcomeValue onChain24HrOutcomeValue timestamp shareTokenBalances
          finalized).unrealizedCost = 0 then 0 else
        (getTradingPositionFromProfitLossFrame profitLossFrame marketDoc
          onChainOutcomeValue onChain24HrOutcomeValue timestamp shareTokenBalances
          finalized).unrealized24Hr /
        (getTradingPositionFromProfitLossFrame profitLossFrame marketDoc
          onChainOutcomeValue onChain24HrOutcomeValue timestamp shareTokenBalances
          finalized).unrealizedCost) ∧
    (getTradingPositionFromProfitLossFrame profitLossFrame marketDoc
        onChainOutcomeValue onChain24HrOutcomeValue timestamp shareTokenBalances
        finalized).totalPercent =
      bnDiv (getTradingPositionFromProfitLossFrame profitLossFrame marketDoc
          onChainOutcomeValue onChain24HrOutcomeValue timestamp shareTokenBalances
          finalized).total
        ((getTradingPositionFromProfitLossFrame profitLossFrame marketDoc
          onChainOutcomeValue onChain24HrOutcomeValue timestamp shareTokenBalances
          finalized).realizedCost +
         (getTradingPositionFromProfitLossFrame profitLossFrame marketDoc
          onChainOutcomeValue onChain24HrOutcomeValue timestamp shareTokenBalances
          finalized).unrealizedCost) ∧
    ((getTradingPositionFromProfitLossFrame profitLossFrame marketDoc
        onChainOutcomeValue onChain24HrOutcomeValue timestamp shareTokenBalances
        finalized).realizedCost +
      (getTradingPositionFromProfitLossFrame profitLossFrame marketDoc
        onChainOutcomeValue onChain24HrOutcomeValue timestamp shareTokenBalances
        finalized).unrealizedCost = 0 →
      (getTradingPositionFromProfitLossFrame profitLossFrame marketDoc
        onChainOutcomeValue onChain24HrOutcomeValue timestamp shareTokenBalances
        finalized).totalPercent = none) := by
  refine ⟨?_, ?_, ?_, rfl, ?_⟩
  · simp only [getTradingPositionFromProfitLossFrame]
    exact guardedBnDivAbs_eq _ _
  · simp only [getTradingPositionFromProfitLossFrame]
    exact guardedBnDiv_eq _ _
  · simp only [getTradingPositionFromProfitLossFrame]
    exact guardedBnDiv_eq _ _
  · intro h
    simp only [getTradingPositionFromProfitLossFrame] at h ⊢
    exact bnDiv_zero_den _ _ h

/-- C3 witness: the amended totalPercent conjunct applied at the concrete
all-zero-cost input. -/
theorem percent_fields_spec_witness :
    (getTradingPositionFromProfitLossFrame
        ⟨"m2", "0x00", 0, 0, 0, 0, 0, 0⟩ ⟨"m2", 0, 10 ^ 18, 100⟩
        50 none 0 none true).realizedCost +
      (getTradingPositionFromProfitLossFrame
        ⟨"m2", "0x00", 0, 0, 0, 0, 0, 0⟩ ⟨"m2", 0, 10 ^ 18, 100⟩
        50 none 0 none true).unrealizedCost = 0 ∧
    (getTradingPositionFromProfitLossFrame
        ⟨"m2", "0x00", 0, 0, 0, 0, 0, 0⟩ ⟨"m2", 0, 10 ^ 18, 100⟩
        50 none 0 none true).totalPercent = none :=
  ⟨by simp [getTradingPositionFromProfitLossFrame],
    (percent_fields_spec ⟨"m2", "0x00", 0, 0, 0, 0, 0, 0⟩ ⟨"m2", 0, 10 ^ 18, 100⟩
      50 none 0 none true).2.2.2.2
      (by simp [getTradingPositionFromProfitLossFrame])⟩

/-- The source's `MarketTradingPosition` as consumed and produced by
`sumTradingPositions`.  All numeric-string fields become `ℚ`; the percentage
fields of a rollup are always produced behind a zero-cost guard, hence plain
`ℚ`.  The `userSharesBalances` map is not touched by the rollup and is
omitted. -/
structure MarketTradingPosition where
  timestamp : ℤ
  frozenFunds : ℚ
  marketId : String
  realized : ℚ
  unrealized : ℚ
  unrealized24Hr : ℚ
  total : ℚ
  unrealizedCost : ℚ
  realizedCost : ℚ
  totalCost : ℚ
  realizedPercent : ℚ
  unrealizedPercent : ℚ
  unrealized24HrPercent : ℚ
  totalPercent : ℚ
  currentValue : ℚ
deriving DecidableEq

/-- The all-zero accumulator literal of `sumTradingPositions`
(`Users.ts` lines 1292-1309). -/
def zeroMarketTradingPosition : MarketTradingPosition :=
  { timestamp := 0, frozenFunds := 0, marketId := "", realized := 0,
    unrealized := 0, unrealized24Hr := 0, total := 0, unrealizedCost := 0,
    realizedCost := 0, totalCost := 0, realizedPercent := 0,
    unrealizedPercent := 0, unrealized24HrPercent := 0, totalPercent := 0,
    currentValue := 0 }

/-- The reduction step of `sumTradingPositions` (`Users.ts` lines 1247-1291):
additively folds the monetary components and resets the derived fields. -/
def sumTradingPositionsStep
    (resultPosition tradingPosition : MarketTradingPosition) :
    MarketTradingPosition :=
  { timestamp := tradingPosition.timestamp
    frozenFunds := resultPosition.frozenFunds + tradingPosition.frozenFunds
    marketId := tradingPosition.marketId
    realized := resultPosition.realized + tradingPosition.realized
    unrealized := resultPosition.unrealized + tradingPosition.unrealized
    unrealized24Hr := resultPosition.unrealized24Hr + tradingPosition.unrealized24Hr
    total := 0
    unrealizedCost := resultPosition.unrealizedCost + tradingPosition.unrealizedCost
    realizedCost := resultPosition.realizedCost + tradingPosition.realizedCost
    totalCost := 0
    realizedPercent := 0
    unrealizedPercent := 0
    unrealized24HrPercent := 0
    totalPercent := 0
    currentValue := resultPosition.currentValue + tradingPosition.currentValue }

/-- Shallow embedding of `sumTradingPositions` (`Users.ts` lines 1244-1341):
fold the monetary components, then recompute `total`, `totalCost` and all
percentage fields from the summed components (`toFixed(4)` display rounding
of percentages is not modelled). -/
def sumTradingPositions (tradingPositions : List MarketTradingPosition) :
    MarketTradingPosition :=
  let summedTrade :=
    tradingPositions.foldl sumTradingPositionsStep zeroMarketTradingPosition
  let realized := summedTrade.realized
  let unrealized := summedTrade.unrealized
  let unrealized24Hr := summedTrade.unrealized24Hr
  let realizedCost := summedTrade.realizedCost
  let unrealizedCost := summedTrade.unrealizedCost
  let total := realized + unrealized
  let totalCost := |realizedCost + unrealizedCost|
  { summedTrade with
      total := total
      totalCost := totalCost
      realizedPercent := if realizedCost = 0 then 0 else realized / realizedCost
      unrealizedPercent := if unrealizedCost = 0 then 0 else unrealized / unrealizedCost
      unrealized24HrPercent :=
        if unrealizedCost = 0 then 0 else unrealized24Hr / unrealizedCost
      totalPercent := if totalCost = 0 then 0 else total / totalCost }

/-- Helper: any field on which the rollup step acts additively folds to the
sum of that field over the list. -/
lemma sumTradingPositions_foldl_field (f : MarketTradingPosition → ℚ)
    (hstep : ∀ acc p, f (sumTradingPositionsStep acc p) = f acc + f p)
    (ps : List MarketTradingPosition) (acc : MarketTradingPosition) :
    f (ps.foldl sumTradingPositionsStep acc) = f acc + (ps.map f).sum := by
  induction ps generalizing acc with
  | nil => simp
  | cons p ps ih =>
    rw [List.foldl_cons, ih, hstep, List.map_cons, List.sum_cons]
    ring

/-- C1: for every list of trading positions the rollup sums `frozenFunds`,
`realized`, `unrealized`, `unrealized24Hr`, `realizedCost`, `unrealizedCost`
and `currentValue` additively, recomputes `total = realized + unrealized` and
`totalCost = |realizedCost + unrealizedCost|` exactly, recomputes every
percentage field from the summed costs (never from the inputs' percentage
fields), and maps the empty list to the canonical all-zero record. -/
theorem sumTradingPositions_rollup_invariant (ps : List MarketTradingPosition) :
    (sumTradingPositions ps).frozenFunds = (ps.map (fun p => p.frozenFunds)).sum ∧
    (sumTradingPositions ps).realized = (ps.map (fun p => p.realized)).sum ∧
    (sumTradingPositions ps).unrealized = (ps.map (fun p => p.unrealized)).sum ∧
    (sumTradingPositions ps).unrealized24Hr = (ps.map (fun p => p.unrealized24Hr)).sum ∧
    (sumTradingPositions ps).realizedCost = (ps.map (fun p => p.realizedCost)).sum ∧
    (sumTradingPositions ps).unrealizedCost = (ps.map (fun p => p.unrealizedCost)).sum ∧
    (sumTradingPositions ps).currentValue = (ps.map (fun p => p.currentValue)).sum ∧
    (sumTradingPositions ps).total =
      (sumTradingPositions ps).realized + (sumTradingPositions ps).unrealized ∧
    (sumTradingPositions ps).totalCost =
      |(sumTradingPositions ps).realizedCost + (sumTradingPositions ps).unrealizedCost| ∧
    (sumTradingPositions ps).realizedPercent =
      (if (sumTradingPositions ps).realizedCost = 0 then 0 else
        (sumTradingPositions ps).realized / (sumTradingPositions ps).realizedCost) ∧
    (sumTradingPositions ps).unrealizedPercent =
      (if (sumTradingPositions ps).unrealizedCost = 0 then 0 else
        (sumTradingPositions ps).unrealized / (sumTradingPositions ps).unrealizedCost) ∧
    (sumTradingPositions ps).unrealized24HrPercent =
      (if (sumTradingPositions ps).unrealizedCost = 0 then 0 else
        (sumTradingPositions ps).unrealized24Hr / (sumTradingPositions ps).unrealizedCost) ∧
    (sumTradingPositions ps).totalPercent =
      (if (sumTradingPositions ps).totalCost = 0 then 0 else
        (sumTradingPositions ps).total / (sumTradingPositions ps).totalCost) ∧
    sumTradingPositions [] = zeroMarketTradingPosition := by
  refine ⟨?_, ?_, ?_, ?_, ?_, ?_, ?_, rfl, rfl, rfl, rfl, rfl, rfl, ?_⟩
  · simpa [sumTradingPositions, zeroMarketTradingPosition] using
      sumTradingPositions_foldl_field (fun p => p.frozenFunds) (fun _ _ => rfl)
        ps zeroMarketTradingPosition
  · simpa [sumTradingPositions, zeroMarketTradingPosition] using
      sumTradingPositions_foldl_field (fun p => p.realized) (fun _ _ => rfl)
        ps zeroMarketTradingPosition
  · simpa [sumTradingPositions, zeroMarketTradingPosition] using
      sumTradingPositions_foldl_field (fun p => p.unrealized) (fun _ _ => rfl)
        ps zeroMarketTradingPosition
  · simpa [sumTradingPositions, zeroMarketTradingPosition] using
      sumTradingPositions_foldl_field (fun p => p.unrealized24Hr) (fun _ _ => rfl)
        ps zeroMarketTradingPosition
  · simpa [sumTradingPositions, zeroMarketTradingPosition] using
      sumTradingPositions_foldl_field (fun p => p.realizedCost) (fun _ _ => rfl)
        ps zeroMarketTradingPosition
  · simpa [sumTradingPositions, zeroMarketTradingPosition] using
      sumTradingPositions_foldl_field (fun p => p.unrealizedCost) (fun _ _ => rfl)
        ps zeroMarketTradingPosition
  · simpa [sumTradingPositions, zeroMarketTradingPosition] using
      sumTradingPositions_foldl_field (fun p => p.currentValue) (fun _ _ => rfl)
        ps zeroMarketTradingPosition
  · simp [sumTradingPositions, zeroMarketTradingPosition]

/-- Number of days in the summary month (`const DAYS_IN_MONTH = 30`,
`Users.ts` line 42). -/
def DAYS_IN_MONTH : ℕ := 30

/-- Default bucket count (`Users.ts` line 43). -/
def DEFAULT_NUMBER_OF_BUCKETS : ℕ := DAYS_IN_MONTH

/-- JavaScript `Math.ceil(n / d)` for the only case the source reaches
(`0 ≤ n`, `0 < d`, after the range guards). -/
def jsCeilDiv (n d : ℤ) : ℤ := ((n + d - 1).toNat / d.toNat : ℕ)

/-- The guard `periodInterval !== null && periodInterval <= 0` of
`bucketRangeByInterval`. -/
def isNonPositiveInterval (periodInterval : Option ℤ) : Bool :=
  match periodInterval with
  | some i => decide (i ≤ 0)
  | none => false

/-- The bucket-collection loop of `bucketRangeByInterval` (`Users.ts` lines
1366-1373), with explicit fuel bounding the iteration count; the caller
passes fuel strictly exceeding the iteration count for every positive
interval. -/
def bucketsLoop : ℕ → ℤ → ℤ → ℤ → List ℤ
  | 0, _, _, _ => []
  | fuel + 1, bucketEndTime, endTime, interval =>
    if bucketEndTime < endTime then
      bucketEndTime :: bucketsLoop fuel (bucketEndTime + interval) endTime interval
    else []

/-- Shallow embedding of `bucketRangeByInterval` (`Users.ts` lines
1343-1377): validate the range, derive the interval as
`Math.ceil((endTime - startTime) / 30)` when the argument is null, collect
the instants strictly below `endTime`, and append `endTime`. -/
def bucketRangeByInterval (startTime endTime : ℤ)
    (periodInterval : Option ℤ) : Except String (List ℤ) :=
  if startTime < 0 then
    .error "startTime must be a valid unix timestamp, greater than 0"
  else if endTime < 0 then
    .error "endTime must be a valid unix timestamp, greater than 0"
  else if endTime < startTime then
    .error "endTime must be greater than or equal startTime"
  else if isNonPositiveInterval periodInterval then
    .error "periodInterval must be positive integer (seconds)"
  else
    let interval :=
      match periodInterval with
      | none => jsCeilDiv (endTime - startTime) DEFAULT_NUMBER_OF_BUCKETS
      | some i => i
    .ok (bucketsLoop (endTime - startTime + 1).toNat startTime endTime interval
          ++ [endTime])

/-- Helper: with a positive interval and sufficient fuel, the bucket loop
produces exactly the arithmetic progression of instants strictly below the
end time. -/
lemma bucketsLoop_spec (e i : ℤ) (hi : 0 < i) :
    ∀ (fuel : ℕ) (s : ℤ), (e - s).toNat < fuel →
      ∃ n : ℕ, bucketsLoop fuel s e i
          = (List.range n).map (fun k : ℕ => s + (k : ℤ) * i)
        ∧ ∀ k : ℕ, k < n ↔ s + (k : ℤ) * i < e := by
  intro fuel
  induction fuel with
  | zero => intro s hs; omega
  | succ fuel ih =>
    intro s hs
    by_cases h : s < e
    · obtain ⟨m, hm, hk⟩ := ih (s + i) (by omega)
      refine ⟨m + 1, ?_, ?_⟩
      · rw [bucketsLoop, if_pos h, hm, List.range_succ_eq_map, List.map_cons,
          List.map_map]
        refine congrArg₂ List.cons (by simp) ?_
        refine List.map_congr_left (fun k _ => ?_)
        simp only [Function.comp_apply]
        push_cast
        ring
      · intro k
        cases k with
        | zero => simpa using h
        | succ k =>
          have hshift : s + (((k + 1 : ℕ)) : ℤ) * i = (s + i) + (k : ℤ) * i := by
            push_cast
            ring
          rw [hshift]
          constructor
          · intro hlt
            exact (hk k).mp (Nat.lt_of_succ_lt_succ hlt)
          · intro hlt
            exact Nat.succ_lt_succ ((hk k).mpr hlt)
    · refine ⟨0, ?_, ?_⟩
      · rw [bucketsLoop, if_neg h]
        simp
      · intro k
        simp only [Nat.not_lt_zero, false_iff, not_lt]
        have hnn : (0 : ℤ) ≤ (k : ℤ) * i :=
          mul_nonneg (Int.natCast_nonneg k) hi.le
        omega

/-- C7: for every valid range and positive interval the bucketer returns the
instants `start, start+interval, start+2*interval, ...` strictly below `end`
followed by `end` itself; `bucketize(t, t, i)` is exactly `[t]`;
`bucketize(0, 100, 25)` is `[0, 25, 50, 75, 100]`; and a null interval is
derived as `ceil((end-start)/30)` before the same collection loop runs. -/
theorem bucketRangeByInterval_spec :
    (∀ s e i : ℤ, 0 ≤ s → s ≤ e → 0 < i →
      ∃ n : ℕ, bucketRangeByInterval s e (some i)
          = .ok (((List.range n).map fun k : ℕ => s + (k : ℤ) * i) ++ [e])
        ∧ ∀ k : ℕ, k < n ↔ s + (k : ℤ) * i < e) ∧
    (∀ t i : ℤ, 0 ≤ t → 0 < i →
      bucketRangeByInterval t t (some i) = .ok [t]) ∧
    bucketRangeByInterval 0 100 (some 25) = .ok [0, 25, 50, 75, 100] ∧
    (∀ s e : ℤ, 0 ≤ s → s ≤ e →
      bucketRangeByInterval s e none
        = .ok (bucketsLoop (e - s + 1).toNat s e
            (jsCeilDiv (e - s) DAYS_IN_MONTH) ++ [e])) := by
  refine ⟨?_, ?_, ?_, ?_⟩
  · intro s e i hs hse hi
    have h1 : ¬ s < 0 := not_lt.mpr hs
    have h2 : ¬ e < 0 := not_lt.mpr (hs.trans hse)
    have h3 : ¬ e < s := not_lt.mpr hse
    have h4 : isNonPositiveInterval (some i) = false := by
      simp only [isNonPositiveInterval, decide_eq_false_iff_not, not_le]
      exact hi
    obtain ⟨n, hn, hk⟩ :=
      bucketsLoop_spec e i hi ((e - s + 1).toNat) s (by omega)
    refine ⟨n, ?_, hk⟩
    simp [bucketRangeByInterval, h1, h2, h3, h4, hn]
  · intro t i ht hi
    have h1 : ¬ t < 0 := not_lt.mpr ht
    have h4 : isNonPositiveInterval (some i) = false := by
      simp only [isNonPositiveInterval, decide_eq_false_iff_not, not_le]
      exact hi
    simp [bucketRangeByInterval, h1, h4, bucketsLoop]
  · rfl
  · intro s e hs hse
    have h1 : ¬ s < 0 := not_lt.mpr hs
    have h2 : ¬ e < 0 := not_lt.mpr (hs.trans hse)
    have h3 : ¬ e < s := not_lt.mpr hse
    simp [bucketRangeByInterval, isNonPositiveInterval, h1, h2, h3,
      DEFAULT_NUMBER_OF_BUCKETS]

/-- C7 witness: the `bucketize(t, t, i) = [t]` conjunct at `t = 5`, `i = 7`. -/
theorem bucketRangeByInterval_spec_witness :
    bucketRangeByInterval 5 5 (some 7) = .ok [5] :=
  bucketRangeByInterval_spec.2.1 5 7 (by decide) (by decide)

/-- Fields of a `ParsedOrderEventLog` (fill record) used by the bucketed
profit/loss valuation: the fill price (on-chain scale) and its timestamp. -/
structure ParsedOrderEventLog where
  price : ℚ
  timestamp : ℤ
deriving DecidableEq

/-- Fields of a `MarketFinalized` log used by the bucketed profit/loss
valuation: the finalization timestamp and the winning payout numerators. -/
structure MarketFinalizedLog where
  timestamp : ℤ
  winningPayoutNumerators : List ℚ
deriving DecidableEq

/-- Shallow embedding of `getLastDocBeforeTimestamp` (`Users.ts` lines
1461-1472): the last element of the longest prefix whose timestamps are at or
before the given timestamp (the source's base-16 argument only parses its hex
timestamp strings, which are already `ℤ` here). -/
def getLastDocBeforeTimestamp {α : Type} (timestampOf : α → ℤ)
    (docs : List α) (timestamp : ℤ) : Option α :=
  let allBeforeTimestamp := docs.takeWhile fun doc => timestampOf doc ≤ timestamp
  allBeforeTimestamp.getLast?

/-- The per-bucket `finalized` flag of `getProfitLoss` (`Users.ts` line 1118):
a finalization record exists and its timestamp is at or before the bucket
instant. -/
def bucketFinalizedFlag (marketFinalized : Option MarketFinalizedLog)
    (bucketTimestamp : ℤ) : Bool :=
  match marketFinalized with
  | some fin => decide ( fin.timestamp ≤ bucketTimestamp)
  | none => false

/-- The valuation price chosen by `getProfitLoss` for one
(market, outcome, bucket) triple (`Users.ts` lines 1141-1165), reached when a
profit/loss record exists and the outcome has fills (or is finalized): the
winning payout numerator once finalized as of the instant; otherwise the
market's minimum price whenever any finalization record exists (`Users.ts`
line 1156), and only with no finalization record at all the price of the
latest fill at or before the instant, falling back to the record's average
price. -/
def bucketOutcomeValue (marketFinalized : Option MarketFinalizedLog)
    (marketDoc : MarketData) (fills : List ParsedOrderEventLog)
    (latestOutcomePLValue : ProfitLossChangedLog) (outcome : ℕ)
    (bucketTimestamp : ℤ) : ℚ :=
  if bucketFinalizedFlag marketFinalized bucketTimestamp then
    match marketFinalized with
    | some fin => fin.winningPayoutNumerators.getD outcome 0
    | none => marketDoc.prices0
  else
    match marketFinalized with
    | some _ => marketDoc.prices0
    | none =>
      match getLastDocBeforeTimestamp (fun d => d.timestamp) fills
          bucketTimestamp with
      | some lastFill => lastFill.price
      | none => latestOutcomePLValue.avgPrice / QUINTILLION

/-- C5 counterexample: a market with a finalization record at time 100, a
bucket instant 50 (so the market is not finalized as of the instant), a fill
at price 7 at time 10, and an existing position record: the claim requires the
latest-fill price 7, but the code values the position at the market minimum
price 0 because a finalization record exists at all. -/
theorem bucketOutcomeValue_pending_finalization_counterexample :
    bucketFinalizedFlag (some ⟨100, [0, 1]⟩) 50 = false ∧
    getLastDocBeforeTimestamp (fun d => d.timestamp)
        [(⟨7, 10⟩ : ParsedOrderEventLog)] 50 = some ⟨7, 10⟩ ∧
    bucketOutcomeValue (some ⟨100, [0, 1]⟩) ⟨"m", 0, 10 ^ 18, 100⟩
        [⟨7, 10⟩] ⟨"m", "0x00", 0, 0, 0, 0, 0, 0⟩ 0 50 = 0 ∧
    bucketOutcomeValue (some ⟨100, [0, 1]⟩) ⟨"m", 0, 10 ^ 18, 100⟩
        [⟨7, 10⟩] ⟨"m", "0x00", 0, 0, 0, 0, 0, 0⟩ 0 50 ≠ 7 := by
  refine ⟨rfl, rfl, rfl, ?_⟩
  intro h
  simp [bucketOutcomeValue, bucketFinalizedFlag] at h

/-- C5 as amended: the latest-fill-at-or-before-the-instant valuation (with
the average-price fallback) applies only when no finalization record exists
for the market at all; when a finalization record exists whose timestamp is
after the instant (market not yet finalized as of that instant), the code
values the outcome at the market's minimum price instead. -/
theorem bucketOutcomeValue_valuation_spec :
    (∀ (marketDoc : MarketData) (fills : List ParsedOrderEventLog)
        (latestOutcomePLValue : ProfitLossChangedLog) (outcome : ℕ)
        (bucketTimestamp : ℤ),
      bucketOutcomeValue none marketDoc fills latestOutcomePLValue outcome
          bucketTimestamp
        = match getLastDocBeforeTimestamp (fun d => d.timestamp) fills
              bucketTimestamp with
          | some lastFill => lastFill.price
          | none => latestOutcomePLValue.avgPrice / QUINTILLION) ∧
    (∀ (fin : MarketFinalizedLog) (marketDoc : MarketData)
        (fills : List ParsedOrderEventLog)
        (latestOutcomePLValue : ProfitLossChangedLog) (outcome : ℕ)
        (bucketTimestamp : ℤ),
      bucketFinalizedFlag (some fin) bucketTimestamp = false →
      bucketOutcomeValue (some fin) marketDoc fills latestOutcomePLValue
          outcome bucketTimestamp = marketDoc.prices0) := by
  constructor
  · intro marketDoc fills latestOutcomePLValue outcome bucketTimestamp
    rfl
  · intro fin marketDoc fills latestOutcomePLValue outcome bucketTimestamp h
    simp [bucketOutcomeValue, h]

/-- C5 witness: the pending-finalization conjunct applied at the concrete
counterexample inputs. -/
theorem bucketOutcomeValue_valuation_spec_witness :
    bucketFinalizedFlag (some ⟨100, [0, 1]⟩) 50 = false ∧
    bucketOutcomeValue (some ⟨100, [0, 1]⟩) ⟨"mw", 3, 10 ^ 18, 100⟩
        [⟨7, 10⟩] ⟨"mw", "0x00", 0, 0, 0, 0, 0, 0⟩ 0 50 = 3 :=
  ⟨rfl,
    bucketOutcomeValue_valuation_spec.2 ⟨100, [0, 1]⟩ ⟨"mw", 3, 10 ^ 18, 100⟩
      [⟨7, 10⟩] ⟨"mw", "0x00", 0, 0, 0, 0, 0, 0⟩ 0 50 rfl⟩

/-- `BigNumber.min(...values)` over a possibly empty collected array, with the
source's `ZERO` default for an empty one (`Users.ts` lines 1498-1501). -/
def listMin : List ℚ → ℚ
  | [] => 0
  | v :: vs => vs.foldl min v

/-- Helper: a left fold by `min` is bounded by its initial value. -/
lemma foldl_min_le_init (a : ℚ) (l : List ℚ) : l.foldl min a ≤ a := by
  induction l generalizing a with
  | nil => simp
  | cons x l ih => exact le_trans (ih (min a x)) (min_le_left a x)

/-- Helper: a left fold by `min` is bounded by every list element. -/
lemma foldl_min_le_mem (a : ℚ) (l : List ℚ) : ∀ x ∈ l, l.foldl min a ≤ x := by
  induction l generalizing a with
  | nil => simp
  | cons y l ih =>
    intro x hx
    rcases List.mem_cons.mp hx with hxy | hxl
    · subst hxy
      exact le_trans (foldl_min_le_init (min a x) l) (min_le_right a x)
    · exact ih (min a y) x hxl

/-- Helper: a left fold by `min` is its initial value or some list element. -/
lemma foldl_min_mem_or (a : ℚ) (l : List ℚ) :
    l.foldl min a = a ∨ l.foldl min a ∈ l := by
  induction l generalizing a with
  | nil => left; rfl
  | cons y l ih =>
    rcases ih (min a y) with h | h
    · rcases min_choice a y with hm | hm
      · left
        rw [List.foldl_cons, h, hm]
      · right
        rw [List.foldl_cons, h, hm]
        exact List.mem_cons_self y l
    · right
      exact List.mem_cons_of_mem y h

/-- Helper: `listMin` is a lower bound of its list. -/
lemma listMin_le (l : List ℚ) : ∀ x ∈ l, listMin l ≤ x := by
  cases l with
  | nil => simp
  | cons v vs =>
    intro x hx
    rcases List.mem_cons.mp hx with hxy | hxl
    · subst hxy
      exact foldl_min_le_init x vs
    · exact foldl_min_le_mem v vs x hxl

/-- Helper: `listMin` of a nonempty list is attained by some element. -/
lemma listMin_mem (l : List ℚ) (h : l ≠ []) : listMin l ∈ l := by
  cases l with
  | nil => exact absurd rfl h
  | cons v vs =>
    rcases foldl_min_mem_or v vs with hm | hm
    · rw [listMin, hm]
      exact List.mem_cons_self v vs
    · exact List.mem_cons_of_mem v hm

/-- Helper: a successful association-list lookup locates a member pair. -/
lemma lookup_mem {l : List (String × ℚ)} {k : String} {v : ℚ}
    (h : l.lookup k = some v) : (k, v) ∈ l := by
  induction l with
  | nil => simp [List.lookup] at h
  | cons kv t ih =>
    obtain ⟨k1, v1⟩ := kv
    simp only [List.lookup] at h
    cases hke : (k == k1) with
    | true =>
      rw [hke] at h
      obtain rfl : k = k1 := by simpa using hke
      obtain rfl : v1 = v := by simpa using h
      exact List.mem_cons_self _ _
    | false =>
      rw [hke] at h
      exact List.mem_cons_of_mem _ (ih h)

/-- Output of `addEscrowedAmountsDecrementShares`: the two order fields the
source mutates in place and the updated shared balance map (modelled as an
association list in the object's key order). -/
structure EscrowResult where
  tokensEscrowed : ℚ
  sharesEscrowed : ℚ
  balances : List (String × ℚ)
deriving DecidableEq

/-- Shallow embedding of `addEscrowedAmountsDecrementShares` (`Users.ts`
lines 1474-1533).  `orderType = 0` is a bid: the offset is capped by the
minimum complementary-outcome balance and every other outcome's balance is
decremented by it.  Any other `orderType` is an ask: the offset is capped by
that outcome's own balance, which is decremented (an absent key is written,
as the source's assignment creates it). -/
def addEscrowedAmountsDecrementShares (orderAmount orderPrice : ℚ)
    (outcome : String) (orderType : ℕ) (market : MarketData)
    (userSharesBalances : List (String × ℚ)) : EscrowResult :=
  let maxPrice := market.prices1
  let minPrice := market.prices0
  let displayMaxPrice := maxPrice / QUINTILLION
  let displayMinPrice := minPrice / QUINTILLION
  if orderType = 0 then
    let userSharesBalancesRemoveOutcome :=
      (userSharesBalances.filter fun kv => kv.1 ≠ outcome).map fun kv => kv.2
    let minOutcomeShareAmount := listMin userSharesBalancesRemoveOutcome
    let sharesUsed := min orderAmount minOutcomeShareAmount
    let amt := orderAmount - sharesUsed
    let cost := amt * (orderPrice - displayMinPrice)
    let newBalances := userSharesBalances.map fun kv =>
      if kv.1 = outcome then kv else (kv.1, kv.2 - sharesUsed)
    { tokensEscrowed := cost, sharesEscrowed := sharesUsed,
      balances := newBalances }
  else
    let sharesBN := (userSharesBalances.lookup outcome).getD 0
    let sharesUsed := min orderAmount sharesBN
    let cost := (orderAmount - sharesUsed) * (displayMaxPrice - orderPrice)
    let newValue := if sharesBN > 0 then sharesBN - sharesUsed else sharesBN
    let newBalances :=
      if (userSharesBalances.lookup outcome).isSome then
        userSharesBalances.map fun kv =>
          if kv.1 = outcome then (kv.1, newValue) else kv
      else userSharesBalances ++ [(outcome, newValue)]
    { tokensEscrowed := cost, sharesEscrowed := sharesUsed,
      balances := newBalances }

/-- C8: for every bid order the escrow estimator consumes an offset equal to
`min(order amount, minimum balance over all other outcomes)`, escrows tokens
equal to `(amount - offset) * (order price - display minimum price)`, and
decrements every other outcome's tracked balance by exactly the consumed
offset (the offset is a lower bound of every complementary balance and is
the amount or one of them); in particular a bid of amount 10 at limit price
0.6 against a complementary minimum balance of 4 escrows tokens for only 6
units (3.6 tokens at minimum price 0) and decrements every other outcome by
4. -/
theorem addEscrowedAmounts_bid_spec :
    (∀ (orderAmount orderPrice : ℚ) (outcome : String) (market : MarketData)
        (balances : List (String × ℚ)),
      (addEscrowedAmountsDecrementShares orderAmount orderPrice outcome 0
          market balances).sharesEscrowed
        = min orderAmount
            (listMin ((balances.filter fun kv => kv.1 ≠ outcome).map
              fun kv => kv.2)) ∧
      (addEscrowedAmountsDecrementShares orderAmount orderPrice outcome 0
          market balances).tokensEscrowed
        = (orderAmount - (addEscrowedAmountsDecrementShares orderAmount orderPrice outcome 0
          market balances).sharesEscrowed) *
            (orderPrice - market.prices0 / QUINTILLION) ∧
      (addEscrowedAmountsDecrementShares orderAmount orderPrice outcome 0
          market balances).balances
        = (balances.map fun kv =>
            if kv.1 = outcome then kv
            else (kv.1, kv.2 - (addEscrowedAmountsDecrementShares orderAmount orderPrice outcome 0
          market balances).sharesEscrowed)) ∧
      (∀ kv ∈ balances, kv.1 ≠ outcome →
        (addEscrowedAmountsDecrementShares orderAmount orderPrice outcome 0
          market balances).sharesEscrowed ≤ kv.2) ∧
      ((∃ kv ∈ balances, kv.1 ≠ outcome) →
        (addEscrowedAmountsDecrementShares orderAmount orderPrice outcome 0
          market balances).sharesEscrowed = orderAmount ∨
          ∃ kv ∈ balances, kv.1 ≠ outcome ∧
            (addEscrowedAmountsDecrementShares orderAmount orderPrice outcome 0
          market balances).sharesEscrowed = kv.2)) ∧
    addEscrowedAmountsDecrementShares 10 (3 / 5) "0x01" 0
        ⟨"m", 0, 10 ^ 18, 100⟩ [("0x00", 4), ("0x01", 0), ("0x02", 9)]
      = ⟨18 / 5, 4, [("0x00", 0), ("0x01", 0), ("0x02", 5)]⟩ := by
  constructor
  · intro orderAmount orderPrice outcome market balances
    refine ⟨rfl, rfl, rfl, ?_, ?_⟩
    · intro kv hkv hne
      have hmem : kv.2 ∈ (balances.filter fun kv => kv.1 ≠ outcome).map
          fun kv => kv.2 :=
        List.mem_map_of_mem _ (List.mem_filter.mpr ⟨hkv, by simpa using hne⟩)
      exact le_trans (min_le_right _ _) (listMin_le _ _ hmem)
    · rintro ⟨kv0, hkv0, hne0⟩
      have hfil : (balances.filter fun kv => kv.1 ≠ outcome).map
          (fun kv => kv.2) ≠ [] := by
        have : kv0.2 ∈ (balances.filter fun kv => kv.1 ≠ outcome).map
            fun kv => kv.2 :=
          List.mem_map_of_mem _ (List.mem_filter.mpr ⟨hkv0, by simpa using hne0⟩)
        exact List.ne_nil_of_mem this
      rcases min_choice orderAmount
          (listMin ((balances.filter fun kv => kv.1 ≠ outcome).map
            fun kv => kv.2)) with hm | hm
      · left
        exact hm
      · right
        have hmm := listMin_mem _ hfil
        obtain ⟨kv1, hkv1, hv1⟩ := List.mem_map.mp hmm
        refine ⟨kv1, (List.mem_filter.mp hkv1).1, ?_, ?_⟩
        · simpa using (List.mem_filter.mp hkv1).2
        · rw [hv1]
          exact hm
  · norm_num [addEscrowedAmountsDecrementShares, listMin, QUINTILLION, min_def,
      EscrowResult.mk.injEq, List.filter, List.map, List.foldl]
    decide

/-- C8 witness: the offset-attainment conjunct applied at the concrete bid,
with its nonempty-complementary-balances hypothesis discharged there. -/
theorem addEscrowedAmounts_bid_spec_witness :
    (∃ kv ∈ [("0x00", (4 : ℚ)), ("0x01", 0), ("0x02", 9)], kv.1 ≠ "0x01") ∧
    ((addEscrowedAmountsDecrementShares 10 (3 / 5) "0x01" 0
          ⟨"m", 0, 10 ^ 18, 100⟩
          [("0x00", 4), ("0x01", 0), ("0x02", 9)]).sharesEscrowed = 10 ∨
      ∃ kv ∈ [("0x00", (4 : ℚ)), ("0x01", 0), ("0x02", 9)], kv.1 ≠ "0x01" ∧
        (addEscrowedAmountsDecrementShares 10 (3 / 5) "0x01" 0
          ⟨"m", 0, 10 ^ 18, 100⟩
          [("0x00", 4), ("0x01", 0), ("0x02", 9)]).sharesEscrowed = kv.2) :=
  ⟨⟨("0x00", 4), by simp, by simp⟩,
    (addEscrowedAmounts_bid_spec.1 10 (3 / 5) "0x01" ⟨"m", 0, 10 ^ 18, 100⟩
        [("0x00", 4), ("0x01", 0), ("0x02", 9)]).2.2.2.2
      ⟨("0x00", 4), by simp, by simp⟩⟩

/-- An open order as consumed by the escrow estimator: amount, limit price,
outcome, and order type (0 = bid, otherwise ask). -/
structure OpenOrder where
  amount : ℚ
  price : ℚ
  outcome : String
  orderType : ℕ
deriving DecidableEq

/-- The caller loop of `getUserOpenOrders` (`Users.ts` lines 423-447): the
balance map is shared and threaded through `addEscrowedAmountsDecrementShares`
for every open order of one account and market. -/
def processOpenOrders (market : MarketData) (orders : List OpenOrder)
    (balances : List (String × ℚ)) : List (String × ℚ) :=
  orders.foldl
    (fun b o =>
      (addEscrowedAmountsDecrementShares o.amount o.price o.outcome o.orderType
        market b).balances)
    balances

/-- C10: if all tracked per-outcome balances are non-negative before an order
is processed, they remain non-negative afterwards — a bid's offset is capped
by the minimum complementary balance and an ask's decrement by the outcome's
own balance — and hence non-negativity holds across any sequence of orders
processed for one account and market. -/
theorem escrow_balances_nonneg_invariant :
    (∀ (orderAmount orderPrice : ℚ) (outcome : String) (orderType : ℕ)
        (market : MarketData) (balances : List (String × ℚ)),
      (∀ kv ∈ balances, 0 ≤ kv.2) →
      ∀ kv ∈ (addEscrowedAmountsDecrementShares orderAmount orderPrice outcome
          orderType market balances).balances, 0 ≤ kv.2) ∧
    (∀ (market : MarketData) (orders : List OpenOrder)
        (balances : List (String × ℚ)),
      (∀ kv ∈ balances, 0 ≤ kv.2) →
      ∀ kv ∈ processOpenOrders market orders balances, 0 ≤ kv.2) := by
  have hstep : ∀ (orderAmount orderPrice : ℚ) (outcome : String)
      (orderType : ℕ) (market : MarketData) (balances : List (String × ℚ)),
      (∀ kv ∈ balances, 0 ≤ kv.2) →
      ∀ kv ∈ (addEscrowedAmountsDecrementShares orderAmount orderPrice outcome
          orderType market balances).balances, 0 ≤ kv.2 := by
    intro orderAmount orderPrice outcome orderType market balances hnn kv hkv
    by_cases hot : orderType = 0
    · subst hot
      simp only [addEscrowedAmountsDecrementShares, if_pos rfl] at hkv
      obtain ⟨kv0, hkv0, heq⟩ := List.mem_map.mp hkv
      by_cases hko : kv0.1 = outcome
      · rw [if_pos hko] at heq
        subst heq
        exact hnn kv0 hkv0
      · rw [if_neg hko] at heq
        subst heq
        have hmem : kv0.2 ∈ (balances.filter fun kv => kv.1 ≠ outcome).map
            fun kv => kv.2 :=
          List.mem_map_of_mem _ (List.mem_filter.mpr ⟨hkv0, by simpa using hko⟩)
        have hle : min orderAmount
            (listMin ((balances.filter fun kv => kv.1 ≠ outcome).map
              fun kv => kv.2)) ≤ kv0.2 :=
          le_trans (min_le_right _ _) (listMin_le _ _ hmem)
        simp only []
        linarith
    · simp only [addEscrowedAmountsDecrementShares, if_neg hot] at hkv
      have hsb : 0 ≤ (balances.lookup outcome).getD 0 := by
        cases hl : balances.lookup outcome with
        | none => simp
        | some v => simpa using hnn _ (lookup_mem hl)
      have hnv : 0 ≤ (if (balances.lookup outcome).getD 0 > 0 then
          (balances.lookup outcome).getD 0 -
            min orderAmount ((balances.lookup outcome).getD 0)
        else (balances.lookup outcome).getD 0) := by
        split
        · have := min_le_right orderAmount ((balances.lookup outcome).getD 0)
          linarith
        · exact hsb
      by_cases hlk : (balances.lookup outcome).isSome
      · rw [if_pos hlk] at hkv
        obtain ⟨kv0, hkv0, heq⟩ := List.mem_map.mp hkv
        by_cases hko : kv0.1 = outcome
        · rw [if_pos hko] at heq
          subst heq
          exact hnv
        · rw [if_neg hko] at heq
          subst heq
          exact hnn kv0 hkv0
      · rw [if_neg hlk] at hkv
        rcases List.mem_append.mp hkv with hin | hin
        · exact hnn kv hin
        · have : kv = (outcome, if (balances.lookup outcome).getD 0 > 0 then
              (balances.lookup outcome).getD 0 -
                min orderAmount ((balances.lookup outcome).getD 0)
            else (balances.lookup outcome).getD 0) := by
            simpa using hin
          rw [this]
          exact hnv
  refine ⟨hstep, ?_⟩
  intro market orders
  induction orders with
  | nil => intro balances h kv hkv; exact h kv hkv
  | cons o os ih =>
    intro balances h
    exact ih _ (hstep o.amount o.price o.outcome o.orderType market balances h)

/-- C10 witness: one bid and one ask processed in sequence from non-negative
balances stay non-negative; hypotheses discharged at the concrete input. -/
theorem escrow_balances_nonneg_invariant_witness :
    (∀ kv ∈ [("0x00", (4 : ℚ)), ("0x01", 0), ("0x02", 9)], 0 ≤ kv.2) ∧
    ∀ kv ∈ processOpenOrders ⟨"m", 0, 10 ^ 18, 100⟩
        [⟨10, 3 / 5, "0x01", 0⟩, ⟨2, 1 / 2, "0x02", 1⟩]
        [("0x00", 4), ("0x01", 0), ("0x02", 9)], 0 ≤ kv.2 :=
  ⟨by simp, escrow_balances_nonneg_invariant.2 ⟨"m", 0, 10 ^ 18, 100⟩
    [⟨10, 3 / 5, "0x01", 0⟩, ⟨2, 1 / 2, "0x02", 1⟩]
    [("0x00", 4), ("0x01", 0), ("0x02", 9)] (by simp)⟩

/-- The balance key the full-loss detector builds for outcome `index`
(`Users.ts` line 1733, the template literal in `getFullMarketPositionLoss`). -/
def outcomeKey (index : ℕ) : String := "0x0" ++ toString index

/-- The per-market total resolved position value of
`getFullMarketPositionLoss` (`Users.ts` lines 1731-1735):
`Σ outcomeBalance[o] * winningPayoutNumerator[o]`, with balance 0 for a
missing outcome entry. -/
def totalPositionValue (payoutNumerators : List ℚ)
    (outcomeBalance : String → Option ℚ) : ℚ :=
  payoutNumerators.enum.foldl
    (fun sum p => sum + (outcomeBalance (outcomeKey p.1)).getD 0 * p.2) 0

/-- Shallow embedding of the reduction of `getFullMarketPositionLoss`
(`Users.ts` lines 1709-1742) after its database queries: collect every
finalized market whose total resolved position value is not positive. -/
def getFullMarketPositionLoss (finalizedMarketIds : List String)
    (winningPayoutNumeratorsOf : String → List ℚ)
    (shareTokenBalances : String → String → Option ℚ) : List String :=
  finalizedMarketIds.foldl
    (fun result marketId =>
      if totalPositionValue (winningPayoutNumeratorsOf marketId)
          (shareTokenBalances marketId) > 0 then result
      else result ++ [marketId])
    []

/-- Helper: a left fold accumulating additions equals the initial value plus
the list sum. -/
lemma foldl_add_eq_sum (f : ℕ × ℚ → ℚ) (l : List (ℕ × ℚ)) (a : ℚ) :
    l.foldl (fun sum p => sum + f p) a = a + (l.map f).sum := by
  induction l generalizing a with
  | nil => simp
  | cons x l ih =>
    rw [List.foldl_cons, ih, List.map_cons, List.sum_cons]
    ring

/-- Helper: membership in the full-loss fold, for any accumulator. -/
lemma fullLoss_foldl_mem (numsOf : String → List ℚ)
    (balances : String → String → Option ℚ) :
    ∀ (ids : List String) (acc : List String) (m : String),
      m ∈ ids.foldl (fun result marketId =>
          if totalPositionValue (numsOf marketId) (balances marketId) > 0
          then result else result ++ [marketId]) acc
        ↔ m ∈ acc ∨ (m ∈ ids ∧
            ¬ totalPositionValue (numsOf m) (balances m) > 0) := by
  intro ids
  induction ids with
  | nil =>
    intro acc m
    simp
  | cons mid ids ih =>
    intro acc m
    rw [List.foldl_cons, ih]
    by_cases hgt : totalPositionValue (numsOf mid) (balances mid) > 0
    · rw [if_pos hgt]
      constructor
      · rintro (h | h)
        · exact Or.inl h
        · exact Or.inr ⟨List.mem_cons_of_mem _ h.1, h.2⟩
      · rintro (h | ⟨hm, hv⟩)
        · exact Or.inl h
        · rcases List.mem_cons.mp hm with rfl | hm2
          · exact absurd hgt hv
          · exact Or.inr ⟨hm2, hv⟩
    · rw [if_neg hgt]
      constructor
      · rintro (h | h)
        · rcases List.mem_append.mp h with h2 | h2
          · exact Or.inl h2
          · have hmid : m = mid := by simpa using h2
            subst hmid
            exact Or.inr ⟨List.mem_cons_self _ _, hgt⟩
        · exact Or.inr ⟨List.mem_cons_of_mem _ h.1, h.2⟩
      · rintro (h | ⟨hm, hv⟩)
        · exact Or.inl (List.mem_append.mpr (Or.inl h))
        · rcases List.mem_cons.mp hm with rfl | hm2
          · exact Or.inl (List.mem_append.mpr (Or.inr (by simp)))
          · exact Or.inr ⟨hm2, hv⟩

/-- C9: a finalized market is flagged as a total loss exactly when its total
resolved position value `Σ outcomeBalance[o] * winningPayoutNumerator[o]` is
not positive — equivalently, is zero whenever that value is non-negative, as
it is for genuine balances and payout numerators; the value is the indexed
sum over the numerators, and the two binary examples behave as the spec
states. -/
theorem getFullMarketPositionLoss_spec :
    (∀ (finalizedMarketIds : List String) (numsOf : String → List ℚ)
        (balances : String → String → Option ℚ) (m : String),
      m ∈ getFullMarketPositionLoss finalizedMarketIds numsOf balances ↔
        m ∈ finalizedMarketIds ∧
          ¬ totalPositionValue (numsOf m) (balances m) > 0) ∧
    (∀ (finalizedMarketIds : List String) (numsOf : String → List ℚ)
        (balances : String → String → Option ℚ) (m : String),
      0 ≤ totalPositionValue (numsOf m) (balances m) →
      (m ∈ getFullMarketPositionLoss finalizedMarketIds numsOf balances ↔
        m ∈ finalizedMarketIds ∧
          totalPositionValue (numsOf m) (balances m) = 0)) ∧
    (∀ (nums : List ℚ) (bal : String → Option ℚ),
      totalPositionValue nums bal
        = (nums.enum.map fun p => (bal (outcomeKey p.1)).getD 0 * p.2).sum) ∧
    getFullMarketPositionLoss ["m1"] (fun _ => [0, 1])
        (fun _ o => if o = "0x00" then some 5 else if o = "0x01" then some 0
          else none) = ["m1"] ∧
    getFullMarketPositionLoss ["m1"] (fun _ => [0, 1])
        (fun _ o => if o = "0x00" then some 0 else if o = "0x01" then some 3
          else none) = [] := by
  have hmem : ∀ (finalizedMarketIds : List String) (numsOf : String → List ℚ)
      (balances : String → String → Option ℚ) (m : String),
      m ∈ getFullMarketPositionLoss finalizedMarketIds numsOf balances ↔
        m ∈ finalizedMarketIds ∧
          ¬ totalPositionValue (numsOf m) (balances m) > 0 := by
    intro finalizedMarketIds numsOf balances m
    simpa [getFullMarketPositionLoss] using
      fullLoss_foldl_mem numsOf balances finalizedMarketIds [] m
  refine ⟨hmem, ?_, ?_, ?_, ?_⟩
  · intro finalizedMarketIds numsOf balances m hnn
    rw [hmem]
    have : ¬ totalPositionValue (numsOf m) (balances m) > 0 ↔
        totalPositionValue (numsOf m) (balances m) = 0 := by
      constructor
      · intro h
        exact le_antisymm (not_lt.mp h) hnn
      · intro h
        rw [h]
        exact lt_irrefl 0
    rw [this]
  · intro nums bal
    simpa using
      foldl_add_eq_sum (fun p => (bal (outcomeKey p.1)).getD 0 * p.2) nums.enum 0
  · norm_num [getFullMarketPositionLoss, totalPositionValue, outcomeKey,
      List.enum, List.enumFrom, List.foldl,
      show ("0x0" ++ toString (0 : ℕ)) = "0x00" from rfl,
      show ("0x0" ++ toString (1 : ℕ)) = "0x01" from rfl,
      show ¬("0x01" = "0x00") from by decide]
  · norm_num [getFullMarketPositionLoss, totalPositionValue, outcomeKey,
      List.enum, List.enumFrom, List.foldl,
      show ("0x0" ++ toString (0 : ℕ)) = "0x00" from rfl,
      show ("0x0" ++ toString (1 : ℕ)) = "0x01" from rfl,
      show ¬("0x01" = "0x00") from by decide]

/-- C9 witness: the zero-total equivalence applied to the flagged binary
example, with its non-negativity hypothesis discharged there. -/
theorem getFullMarketPositionLoss_spec_witness :
    0 ≤ totalPositionValue [0, 1]
        ((fun _ o => if o = "0x00" then some 5 else if o = "0x01" then some 0
          else none : String → String → Option ℚ) "m1") ∧
    ("m1" ∈ getFullMarketPositionLoss ["m1"] (fun _ => [0, 1])
        (fun _ o => if o = "0x00" then some 5 else if o = "0x01" then some 0
          else none) ↔
      "m1" ∈ ["m1"] ∧ totalPositionValue [0, 1]
        ((fun _ o => if o = "0x00" then some 5 else if o = "0x01" then some 0
          else none : String → String → Option ℚ) "m1") = 0) :=
  ⟨by norm_num [totalPositionValue, outcomeKey, List.enum, List.enumFrom,
      List.foldl,
      show ("0x0" ++ toString (0 : ℕ)) = "0x00" from rfl,
      show ("0x0" ++ toString (1 : ℕ)) = "0x01" from rfl,
      show ¬("0x01" = "0x00") from by decide],
    getFullMarketPositionLoss_spec.2.1 ["m1"] (fun _ => [0, 1])
      (fun _ o => if o = "0x00" then some 5 else if o = "0x01" then some 0
        else none) "m1"
      (by norm_num [totalPositionValue, outcomeKey, List.enum, List.enumFrom,
        List.foldl,
        show ("0x0" ++ toString (0 : ℕ)) = "0x00" from rfl,
        show ("0x0" ++ toString (1 : ℕ)) = "0x01" from rfl,
        show ¬("0x01" = "0x00") from by decide])⟩
